import Mathlib

/-!
Verification of the Cutie scoped-hooking library.

The development shallowly embeds the state manipulated by the library:
the machine code at each function address, the records allocated by the
Subhook patch primitive, and the registry slot variables declared by
DECLARE_HOOKABLE.  The Subhook primitive itself is external to the
repository and is modelled from the specification of its boundary
(create_patch / install / remove / free).  The classes
CScopedHookInstall, CScopedHookRemove and MockContainer are translated
directly from src/inc/c_scoped_hook.hpp and src/inc/mock_container.hpp.
-/

/-- A machine address.  Address 0 plays the role of the null pointer. -/
abbrev Addr := Nat

/-- Abstract machine code found at a function entry point: either the
original body of the function that lives at address a, or an installed
trampoline jumping to dst. -/
inductive Code where
  | orig (a : Addr)
  | jmp (dst : Addr)
deriving DecidableEq

/-- The bookkeeping record behind one subhook_t handle: source address,
replacement address, the bytes saved when the patch was installed, and
whether the patch is currently installed resp. the record freed. -/
structure SubhookRec where
  src : Addr
  dst : Addr
  saved : Code
  installed : Bool
  freed : Bool
deriving DecidableEq

/-- The process-wide state seen by the patch primitive: the machine code
at every address, the allocated handle records (indexed by handle id,
with nextId the next fresh id), a flag recording whether free was ever
called twice on one handle, a flag recording a fatal process abort, and
the set of addresses the primitive is able to patch. -/
structure SubhookWorld where
  mem : Addr → Code
  recs : Nat → Option SubhookRec
  nextId : Nat
  doubleFree : Bool
  fatal : Bool
  patchable : Addr → Bool

/-- Modelled from the spec: create_patch(source, replacement) of the
external Patch Primitive (subhook_new).  Allocates a fresh handle record
for the pair; fails fatally when the source address cannot be patched. -/
def subhook_new (w : SubhookWorld) (src dst : Addr) : SubhookWorld × Nat :=
  if w.fatal then (w, 0)
  else if w.patchable src then
    ({ w with
        recs := Function.update w.recs w.nextId
          (some ⟨src, dst, w.mem src, false, false⟩),
        nextId := w.nextId + 1 }, w.nextId)
  else ({ w with fatal := true }, 0)

/-- Modelled from the spec: install(handle) of the external Patch
Primitive.  Saves the current bytes at the source address and writes the
trampoline; a no-op when the handle is already installed or freed. -/
def subhook_install (w : SubhookWorld) (h : Nat) : SubhookWorld :=
  if w.fatal then w else
  match w.recs h with
  | none => w
  | some r =>
    if r.freed || r.installed then w
    else { w with
        mem := Function.update w.mem r.src (Code.jmp r.dst),
        recs := Function.update w.recs h
          (some { r with saved := w.mem r.src, installed := true }) }

/-- Modelled from the spec: remove(handle) of the external Patch
Primitive.  Restores the saved bytes at the source address without
freeing the handle; a no-op when not installed or freed. -/
def subhook_remove (w : SubhookWorld) (h : Nat) : SubhookWorld :=
  if w.fatal then w else
  match w.recs h with
  | none => w
  | some r =>
    if r.freed || !r.installed then w
    else { w with
        mem := Function.update w.mem r.src r.saved,
        recs := Function.update w.recs h (some { r with installed := false }) }

/-- Modelled from the spec: free(handle) of the external Patch
Primitive.  Releases the bookkeeping; must be called at most once per
handle, so a second call on the same handle raises the doubleFree flag. -/
def subhook_free (w : SubhookWorld) (h : Nat) : SubhookWorld :=
  if w.fatal then w else
  match w.recs h with
  | none => w
  | some r =>
    if r.freed then { w with doubleFree := true }
    else { w with recs := Function.update w.recs h (some { r with freed := true }) }

/-- Identity of one Hook Registry Slot, i.e. one subhook_t variable
declared by DECLARE_HOOKABLE or held as the m_hook field of a
MockContainer. -/
abbrev SlotId := Nat

/-- The full world: the patch primitive state together with the value of
every registry slot variable (none models the NULL subhook_t). -/
structure World where
  sub : SubhookWorld
  slots : SlotId → Option Nat

/-- The fields of cutie::CScopedHookInstall: m_hook is a pointer to the
slot variable, modelled by the slot id; m_src is the source address
captured at construction. -/
structure CScopedHookInstall where
  m_slot : SlotId
  m_src : Addr
deriving DecidableEq

/-- The constructor CScopedHookInstall(hook, src, dst): stores src in
m_src, writes subhook_new(src, dst) into the slot and installs it
(src/inc/c_scoped_hook.hpp lines 31 to 35). -/
def CScopedHookInstall.construct (w : World) (slot : SlotId) (src dst : Addr) :
    World × CScopedHookInstall :=
  if w.sub.fatal then (w, ⟨slot, src⟩) else
  let p := subhook_new w.sub src dst
  ({ sub := subhook_install p.1 p.2,
     slots := Function.update w.slots slot (some p.2) }, ⟨slot, src⟩)

/-- CScopedHookInstall::Replace(dst): removes and frees the current
handle read from the slot, then creates a new patch from the stored
m_src (not from the slot or from memory) to dst, stores it in the slot
and installs it (src/inc/c_scoped_hook.hpp lines 37 to 42). -/
def CScopedHookInstall.Replace (self : CScopedHookInstall) (w : World) (dst : Addr) :
    World :=
  if w.sub.fatal then w else
  match w.slots self.m_slot with
  | none => w
  | some h =>
    let s1 := subhook_free (subhook_remove w.sub h) h
    let p := subhook_new s1 self.m_src dst
    { sub := subhook_install p.1 p.2,
      slots := Function.update w.slots self.m_slot (some p.2) }

/-- The destructor of CScopedHookInstall: removes and frees the handle
read from the slot; the slot variable itself is not cleared
(src/inc/c_scoped_hook.hpp lines 44 to 47). -/
def CScopedHookInstall.destruct (self : CScopedHookInstall) (w : World) : World :=
  if w.sub.fatal then w else
  match w.slots self.m_slot with
  | none => w
  | some h => { w with sub := subhook_free (subhook_remove w.sub h) h }

/-- The field of cutie::CScopedHookRemove: m_hook, a pointer to the slot
variable, modelled by the slot id. -/
structure CScopedHookRemove where
  m_slot : SlotId
deriving DecidableEq

/-- The constructor CScopedHookRemove(hook): calls subhook_remove on the
handle currently in the slot (src/inc/c_scoped_hook.hpp lines 59 to 62). -/
def CScopedHookRemove.construct (w : World) (slot : SlotId) :
    World × CScopedHookRemove :=
  (if w.sub.fatal then w else
   match w.slots slot with
   | none => w
   | some h => { w with sub := subhook_remove w.sub h }, ⟨slot⟩)

/-- The destructor of CScopedHookRemove: calls subhook_install on the
handle currently in the slot (src/inc/c_scoped_hook.hpp lines 64 to 66). -/
def CScopedHookRemove.destruct (self : CScopedHookRemove) (w : World) : World :=
  if w.sub.fatal then w else
  match w.slots self.m_slot with
  | none => w
  | some h => { w with sub := subhook_install w.sub h }

/-- The fields of MockContainer: its own subhook_t member m_hook,
modelled by a dedicated slot id, and the m_install member
(src/inc/mock_container.hpp). -/
structure MockContainer where
  m_hookSlot : SlotId
  m_install : CScopedHookInstall
deriving DecidableEq

/-- The protected MockContainer(func, stub) constructor: m_hook() value
initializes the slot to NULL, then m_install(&m_hook, func, stub) runs
(src/inc/mock_container.hpp lines 22 to 24). -/
def MockContainer.construct (w : World) (slot : SlotId) (func stub : Addr) :
    World × MockContainer :=
  let w0 : World := { w with slots := Function.update w.slots slot none }
  let p := CScopedHookInstall.construct w0 slot func stub
  (p.1, ⟨slot, p.2⟩)

/-- MockContainer::set_stub(stub): forwards to m_install.Replace(stub)
(src/inc/mock_container.hpp lines 28 to 30). -/
def MockContainer.set_stub (self : MockContainer) (w : World) (stub : Addr) : World :=
  self.m_install.Replace w stub

/-- CUTIE_UNINITIALIZED_CONTAINER(func): declares MockContainer_func
through its default constructor, which passes stub = nullptr, modelled
as address 0 (src/mock.hpp DECLARE_MOCKABLE and the macro itself). -/
def CUTIE_UNINITIALIZED_CONTAINER (w : World) (slot : SlotId) (func : Addr) :
    World × MockContainer :=
  MockContainer.construct w slot func 0

/-- Running Replace once per element of a list of replacement targets. -/
def replaceList (self : CScopedHookInstall) (w : World) : List Addr → World
  | [] => w
  | d :: ds => replaceList self (self.Replace w d) ds

/-- All intermediate worlds reached while running a list of Replace
calls, the starting world included. -/
def replaceStates (self : CScopedHookInstall) (w : World) : List Addr → List World
  | [] => [w]
  | d :: ds => w :: replaceStates self (self.Replace w d) ds

/-- Control-flow resolution of a call to address a: follow installed
trampolines until an original function body is reached, with fuel
bounding the indirection depth.  The returned address is the body that
actually executes, so two worlds giving equal results are
indistinguishable by calling the function. -/
def resolve (w : SubhookWorld) : Nat → Addr → Option Addr
  | 0, _ => none
  | fuel + 1, a =>
    match w.mem a with
    | Code.orig _ => some a
    | Code.jmp d => resolve w fuel d

/-- A clean starting world: every address holds its own original code,
no records allocated, all slots NULL, everything patchable. -/
def initWorld : World :=
  { sub := { mem := Code.orig, recs := fun _ => none, nextId := 0,
             doubleFree := false, fatal := false, patchable := fun _ => true },
    slots := fun _ => none }

/-- The handle record o is an active (installed, unfreed) redirect for
source address src. -/
def RecActive (o : Option SubhookRec) (src : Addr) : Prop :=
  ∃ r, o = some r ∧ r.installed = true ∧ r.freed = false ∧ r.src = src

/-- No allocated record is an active redirect for src: the slot of that
identity is EMPTY, the original function executes. -/
def NoActive (w : SubhookWorld) (src : Addr) : Prop :=
  ∀ i, ¬ RecActive (w.recs i) src

/-- The record with id h is the only active redirect for src. -/
def OnlyActive (w : SubhookWorld) (src : Addr) (h : Nat) : Prop :=
  ∀ i, RecActive (w.recs i) src → i = h

/-- The slot of an installer holds exactly one active patch: handle h is
stored in the slot, its record maps the original source m_src to dst,
its saved bytes are the original code orig, the machine code at m_src is
the trampoline, and h is the only active redirect for m_src. -/
def HookedSlot (w : World) (inst : CScopedHookInstall) (orig : Code) (dst : Addr) : Prop :=
  w.sub.fatal = false ∧ w.sub.patchable inst.m_src = true ∧
  ∃ h, w.slots inst.m_slot = some h ∧ h < w.sub.nextId ∧
    w.sub.recs h = some ⟨inst.m_src, dst, orig, true, false⟩ ∧
    w.sub.mem inst.m_src = Code.jmp dst ∧
    OnlyActive w.sub inst.m_src h

/-- The invariant holding while one CScopedHookInstall is alive,
relative to the world w0 in which it was constructed: the slot holds the
sole active patch h from the original m_src, with the original bytes of
w0 saved in it; every other record created since construction is freed;
free was never called twice; and everything outside the slot and the
source address is untouched. -/
structure LifeInv (w0 w : World) (inst : CScopedHookInstall) (dst : Addr) (h : Nat) : Prop where
  fatal_false : w.sub.fatal = false
  patch_ok : w0.sub.patchable inst.m_src = true
  slot_eq : w.slots inst.m_slot = some h
  h_ge : w0.sub.nextId ≤ h
  h_lt : h < w.sub.nextId
  rec_eq : w.sub.recs h = some ⟨inst.m_src, dst, w0.sub.mem inst.m_src, true, false⟩
  mem_eq : w.sub.mem inst.m_src = Code.jmp dst
  only_active : OnlyActive w.sub inst.m_src h
  dfree_eq : w.sub.doubleFree = w0.sub.doubleFree
  patchable_eq : w.sub.patchable = w0.sub.patchable
  fresh : ∀ i, w.sub.nextId ≤ i → w.sub.recs i = none
  created_freed : ∀ i, w0.sub.nextId ≤ i → i ≠ h → ∀ r, w.sub.recs i = some r → r.freed = true
  old_recs : ∀ i, i < w0.sub.nextId → w.sub.recs i = w0.sub.recs i
  mem_frame : ∀ a, a ≠ inst.m_src → w.sub.mem a = w0.sub.mem a
  slots_frame : ∀ t, t ≠ inst.m_slot → w.slots t = w0.slots t

/-- At any instant the identity src has at most one active redirect. -/
def AtMostOneActive (w : SubhookWorld) (src : Addr) : Prop :=
  ∀ i j, RecActive (w.recs i) src → RecActive (w.recs j) src → i = j

/-- The world after INSTALL_HOOK followed by one REPLACE_HOOK per
element of ds, on the installer constructed for (slot, src, dst). -/
def installThenReplaces (w : World) (slot : SlotId) (src dst : Addr) (ds : List Addr) : World :=
  replaceList (CScopedHookInstall.construct w slot src dst).2
    (CScopedHookInstall.construct w slot src dst).1 ds

/-- The world after the full installer lifecycle: construction, the
Replace sequence ds, and destruction at scope end. -/
def installReplacesDestroy (w : World) (slot : SlotId) (src dst : Addr) (ds : List Addr) : World :=
  (CScopedHookInstall.construct w slot src dst).2.destruct
    (installThenReplaces w slot src dst ds)


/-- The concrete world of the nested-suppressor scenario after
INSTALL_HOOK at source 5 with stub 7 on slot 0, starting clean. -/
def c5install : World := (CScopedHookInstall.construct initWorld 0 5 7).1

/-- The scenario world after the outer SCOPE_REMOVE_HOOK suppressor is
constructed on slot 0: the patch is deactivated. -/
def c5outer : World := (CScopedHookRemove.construct c5install 0).1

/-- The scenario world after an inner SCOPE_REMOVE_HOOK suppressor is
constructed on the same slot 0 inside the outer scope. -/
def c5inner : World := (CScopedHookRemove.construct c5outer 0).1

/-- The scenario world after the inner suppressor is destroyed, the
outer one still alive. -/
def c5innerDone : World :=
  (CScopedHookRemove.construct c5outer 0).2.destruct c5inner

/-- The argument tuple of one call to a mocked function. -/
abbrev Args := List Nat

/-- Modelled from the spec: one configured expectation clause of the
external call-recording engine (GMock behind CMock): an argument
matcher, the number of remaining unsaturated uses, and the configured
result (section 4.4 of the specification). -/
structure ExpectClause where
  matched : Args → Bool
  remaining : Nat
  result : Nat

/-- Modelled from the spec: the recording object bound to one mocked
identity: configured expectations in declaration order, an optional
default behavior, the recorded invocations, and the unexpected calls
collected for reporting at scope end. -/
structure MockRecord where
  expects : List ExpectClause
  defaultBehavior : Option (Args → Nat)
  calls : List Args
  unexpectedCalls : List Args

/-- Modelled from the spec: find the first unsaturated expectation
matching the arguments, consume one use of it and return its configured
result together with the updated expectation list. -/
def consumeFirst : List ExpectClause → Args → Option (List ExpectClause × Nat)
  | [], _ => none
  | e :: es, args =>
    if e.matched args && decide (0 < e.remaining) then
      some ({ e with remaining := e.remaining - 1 } :: es, e.result)
    else
      (consumeFirst es args).map (fun q => (e :: q.1, q.2))

/-- Modelled from the spec: dispatch of one call to a mocked function:
consume the first unsaturated matching expectation and return its
result; otherwise fall back to the default behavior; otherwise record
the invocation as unexpected, to be reported (non fatally) at scope
end, and return no configured result. -/
def mockDispatch (m : MockRecord) (args : Args) : MockRecord × Option Nat :=
  match consumeFirst m.expects args with
  | some q => ({ m with expects := q.1, calls := m.calls ++ [args] }, some q.2)
  | none =>
    match m.defaultBehavior with
    | some d => ({ m with calls := m.calls ++ [args] }, some (d args))
    | none =>
      let m1 := { m with calls := m.calls ++ [args], unexpectedCalls := m.unexpectedCalls ++ [args] }
      (m1, none)

/-- Modelled from the spec: the failures surfaced by end-of-scope
verification; unexpected invocations are reported there, they do not
abort the test process. -/
def scopeEndFailures (m : MockRecord) : List Args := m.unexpectedCalls

/-- Explicit form of the world after constructing a CScopedHookInstall
on a live process with a patchable source address. -/
theorem construct_eq (w : World) (slot : SlotId) (src dst : Addr)
    (hf : w.sub.fatal = false) (hp : w.sub.patchable src = true) :
    (CScopedHookInstall.construct w slot src dst).1 =
    { sub := { mem := Function.update w.sub.mem src (Code.jmp dst),
               recs := Function.update w.sub.recs w.sub.nextId
                 (some ⟨src, dst, w.sub.mem src, true, false⟩),
               nextId := w.sub.nextId + 1,
               doubleFree := w.sub.doubleFree,
               fatal := false,
               patchable := w.sub.patchable },
      slots := Function.update w.slots slot (some w.sub.nextId) } := by
  simp [CScopedHookInstall.construct, subhook_new, subhook_install, hf, hp]

/-- Explicit form of the world after Replace on a slot holding an
active handle whose source is the stored m_src. -/
theorem Replace_eq (self : CScopedHookInstall) (w : World) (dst' : Addr)
    (h : Nat) (r : SubhookRec)
    (hf : w.sub.fatal = false)
    (hslot : w.slots self.m_slot = some h)
    (hrec : w.sub.recs h = some r)
    (hinst : r.installed = true) (hfr : r.freed = false)
    (hsrc : r.src = self.m_src)
    (hp : w.sub.patchable self.m_src = true) :
    self.Replace w dst' =
    { sub := { mem := Function.update w.sub.mem self.m_src (Code.jmp dst'),
               recs := Function.update
                 (Function.update w.sub.recs h (some ⟨self.m_src, r.dst, r.saved, false, true⟩))
                 w.sub.nextId (some ⟨self.m_src, dst', r.saved, true, false⟩),
               nextId := w.sub.nextId + 1,
               doubleFree := w.sub.doubleFree,
               fatal := false,
               patchable := w.sub.patchable },
      slots := Function.update w.slots self.m_slot (some w.sub.nextId) } := by
  simp [CScopedHookInstall.Replace, subhook_remove, subhook_free, subhook_new,
    subhook_install, hf, hslot, hrec, hinst, hfr, hsrc, hp,
    Function.update_noteq, Function.update_idem]

/-- Explicit form of the world after the CScopedHookInstall destructor
runs on a slot holding an active handle. -/
theorem destruct_eq (self : CScopedHookInstall) (w : World)
    (h : Nat) (r : SubhookRec)
    (hf : w.sub.fatal = false)
    (hslot : w.slots self.m_slot = some h)
    (hrec : w.sub.recs h = some r)
    (hinst : r.installed = true) (hfr : r.freed = false) :
    self.destruct w =
    { sub := { mem := Function.update w.sub.mem r.src r.saved,
               recs := Function.update w.sub.recs h
                 (some ⟨r.src, r.dst, r.saved, false, true⟩),
               nextId := w.sub.nextId,
               doubleFree := w.sub.doubleFree,
               fatal := false,
               patchable := w.sub.patchable },
      slots := w.slots } := by
  simp [CScopedHookInstall.destruct, subhook_remove, subhook_free, hf, hslot, hrec,
    hinst, hfr, Function.update_idem]

/-- Explicit form of the world after constructing a CScopedHookRemove
on a slot holding an active handle: the patch is deactivated, the saved
bytes are restored, the handle is retained (not freed). -/
theorem suppress_eq (w : World) (slot : SlotId) (h : Nat) (r : SubhookRec)
    (hf : w.sub.fatal = false)
    (hslot : w.slots slot = some h)
    (hrec : w.sub.recs h = some r)
    (hinst : r.installed = true) (hfr : r.freed = false) :
    (CScopedHookRemove.construct w slot).1 =
    { sub := { mem := Function.update w.sub.mem r.src r.saved,
               recs := Function.update w.sub.recs h
                 (some ⟨r.src, r.dst, r.saved, false, false⟩),
               nextId := w.sub.nextId,
               doubleFree := w.sub.doubleFree,
               fatal := false,
               patchable := w.sub.patchable },
      slots := w.slots } := by
  simp [CScopedHookRemove.construct, subhook_remove, hf, hslot, hrec, hinst, hfr]

/-- Constructing a CScopedHookRemove on a slot whose handle is already
removed is a no-op on the world: the primitive toggle declines. -/
theorem suppress_noop_eq (w : World) (slot : SlotId) (h : Nat) (r : SubhookRec)
    (hf : w.sub.fatal = false)
    (hslot : w.slots slot = some h)
    (hrec : w.sub.recs h = some r)
    (hinst : r.installed = false) :
    (CScopedHookRemove.construct w slot).1 = w := by
  simp [CScopedHookRemove.construct, subhook_remove, hf, hslot, hrec, hinst]

/-- Explicit form of the world after the CScopedHookRemove destructor
runs on a slot whose handle is currently removed: the trampoline is
written back, re-saving the current bytes at the source. -/
theorem unsuppress_eq (sup : CScopedHookRemove) (w : World) (h : Nat) (r : SubhookRec)
    (hf : w.sub.fatal = false)
    (hslot : w.slots sup.m_slot = some h)
    (hrec : w.sub.recs h = some r)
    (hinst : r.installed = false) (hfr : r.freed = false) :
    sup.destruct w =
    { sub := { mem := Function.update w.sub.mem r.src (Code.jmp r.dst),
               recs := Function.update w.sub.recs h
                 (some ⟨r.src, r.dst, w.sub.mem r.src, true, false⟩),
               nextId := w.sub.nextId,
               doubleFree := w.sub.doubleFree,
               fatal := false,
               patchable := w.sub.patchable },
      slots := w.slots } := by
  simp [CScopedHookRemove.destruct, subhook_install, hf, hslot, hrec, hinst, hfr]

/-- The CScopedHookRemove destructor is a no-op when the handle in the
slot is already installed. -/
theorem unsuppress_noop_eq (sup : CScopedHookRemove) (w : World) (h : Nat) (r : SubhookRec)
    (hf : w.sub.fatal = false)
    (hslot : w.slots sup.m_slot = some h)
    (hrec : w.sub.recs h = some r)
    (hinst : r.installed = true) :
    sup.destruct w = w := by
  simp [CScopedHookRemove.destruct, subhook_install, hf, hslot, hrec, hinst]

/-- Constructing a CScopedHookInstall on a clean, patchable source
establishes the lifetime invariant with the freshly allocated handle. -/
theorem construct_inv (w : World) (slot : SlotId) (src dst : Addr)
    (hf : w.sub.fatal = false) (hp : w.sub.patchable src = true)
    (hfresh : ∀ i, w.sub.nextId ≤ i → w.sub.recs i = none)
    (hna : NoActive w.sub src) :
    LifeInv w (CScopedHookInstall.construct w slot src dst).1 ⟨slot, src⟩ dst w.sub.nextId := by
  rw [construct_eq w slot src dst hf hp]
  refine ⟨rfl, hp, ?_, le_refl _, ?_, ?_, ?_, ?_, rfl, rfl, ?_, ?_, ?_, ?_, ?_⟩
  · dsimp only
    simp
  · dsimp only
    omega
  · dsimp only
    simp
  · dsimp only
    simp
  · intro i hact
    dsimp only at hact
    by_cases hi : i = w.sub.nextId
    · exact hi
    · exact absurd (by rwa [Function.update_noteq hi] at hact) (hna i)
  · intro i hi
    dsimp only at hi ⊢
    rw [Function.update_noteq (show i ≠ w.sub.nextId by omega)]
    exact hfresh i (by omega)
  · intro i hge hne r hr
    dsimp only at hge hr
    rw [Function.update_noteq hne, hfresh i hge] at hr
    exact Option.noConfusion hr
  · intro i hi
    dsimp only
    exact Function.update_noteq (by omega) _ _
  · intro a ha
    dsimp only
    exact Function.update_noteq ha _ _
  · intro t ht
    dsimp only
    exact Function.update_noteq ht _ _

/-- Replace reestablishes the lifetime invariant with the new
replacement target and the freshly allocated handle; the saved original
bytes and the source address are those of construction time. -/
theorem replace_inv (w0 w : World) (inst : CScopedHookInstall) (dst dst' : Addr) (h : Nat)
    (hinv : LifeInv w0 w inst dst h) :
    LifeInv w0 (inst.Replace w dst') inst dst' w.sub.nextId := by
  obtain ⟨hf, hp, hslot, hge, hlt, hrec, hmem, honly, hdf, hpe, hfresh, hcf, hold, hmf, hsf⟩ := hinv
  have hp' : w.sub.patchable inst.m_src = true := by rw [hpe]; exact hp
  rw [Replace_eq inst w dst' h _ hf hslot hrec rfl rfl rfl hp']
  refine ⟨rfl, hp, ?_, by omega, ?_, ?_, ?_, ?_, hdf, hpe, ?_, ?_, ?_, ?_, ?_⟩
  · dsimp only
    simp
  · dsimp only
    omega
  · dsimp only
    simp
  · dsimp only
    simp
  · intro i hact
    dsimp only at hact
    by_cases hi : i = w.sub.nextId
    · exact hi
    · exfalso
      rw [Function.update_noteq hi] at hact
      by_cases hih : i = h
      · subst hih
        rw [Function.update_same] at hact
        obtain ⟨r, hr, hri, _, _⟩ := hact
        cases hr
        exact Bool.noConfusion hri
      · rw [Function.update_noteq hih] at hact
        exact hih (honly i hact)
  · intro i hi
    dsimp only at hi ⊢
    rw [Function.update_noteq (show i ≠ w.sub.nextId by omega),
      Function.update_noteq (show i ≠ h by omega)]
    exact hfresh i (by omega)
  · intro i hge' hne r hr
    dsimp only at hne hr
    rw [Function.update_noteq hne] at hr
    by_cases hih : i = h
    · subst hih
      rw [Function.update_same] at hr
      cases hr
      rfl
    · rw [Function.update_noteq hih] at hr
      exact hcf i hge' hih r hr
  · intro i hi
    dsimp only
    rw [Function.update_noteq (show i ≠ w.sub.nextId by omega),
      Function.update_noteq (show i ≠ h by omega)]
    exact hold i hi
  · intro a ha
    dsimp only
    rw [Function.update_noteq ha]
    exact hmf a ha
  · intro t ht
    dsimp only
    rw [Function.update_noteq ht]
    exact hsf t ht

/-- Any number of Replace calls preserve the lifetime invariant; the
final replacement target is the last one of the list. -/
theorem replaceList_inv (w0 : World) (inst : CScopedHookInstall) (ds : List Addr) :
    ∀ (w : World) (dst : Addr) (h : Nat), LifeInv w0 w inst dst h →
    ∃ h', LifeInv w0 (replaceList inst w ds) inst (ds.getLastD dst) h' := by
  induction ds with
  | nil => exact fun w dst h hinv => ⟨h, hinv⟩
  | cons d ds ih =>
    intro w dst h hinv
    rw [replaceList, List.getLastD_cons]
    exact ih (inst.Replace w d) d w.sub.nextId (replace_inv w0 w inst dst d h hinv)

/-- Every intermediate world of a Replace sequence satisfies the
lifetime invariant for some current target and handle. -/
theorem replaceStates_inv (w0 : World) (inst : CScopedHookInstall) (ds : List Addr) :
    ∀ (w : World) (dst : Addr) (h : Nat), LifeInv w0 w inst dst h →
    ∀ w' ∈ replaceStates inst w ds, ∃ dst' h', LifeInv w0 w' inst dst' h' := by
  induction ds with
  | nil =>
    intro w dst h hinv w' hw'
    rw [replaceStates, List.mem_singleton] at hw'
    exact hw' ▸ ⟨dst, h, hinv⟩
  | cons d ds ih =>
    intro w dst h hinv w' hw'
    rw [replaceStates, List.mem_cons] at hw'
    rcases hw' with rfl | hw'
    · exact ⟨dst, h, hinv⟩
    · exact ih (inst.Replace w d) d w.sub.nextId (replace_inv w0 w inst dst d h hinv) w' hw'

/-- Destroying the installer under the lifetime invariant: the machine
code is everywhere the construction-time code, no active redirect for
the source remains, every record created since construction is freed,
free was never double-called, and nothing else changed. -/
theorem destruct_final (w0 w : World) (inst : CScopedHookInstall) (dst : Addr) (h : Nat)
    (hinv : LifeInv w0 w inst dst h) :
    (inst.destruct w).sub.fatal = false ∧
    (∀ a, (inst.destruct w).sub.mem a = w0.sub.mem a) ∧
    NoActive (inst.destruct w).sub inst.m_src ∧
    (inst.destruct w).sub.doubleFree = w0.sub.doubleFree ∧
    (∀ i, w0.sub.nextId ≤ i → ∀ r, (inst.destruct w).sub.recs i = some r → r.freed = true) ∧
    (∀ i, i < w0.sub.nextId → (inst.destruct w).sub.recs i = w0.sub.recs i) ∧
    (inst.destruct w).slots = w.slots ∧
    (inst.destruct w).sub.nextId = w.sub.nextId ∧
    (inst.destruct w).sub.patchable = w0.sub.patchable ∧
    (∀ i, i ≠ h → (inst.destruct w).sub.recs i = w.sub.recs i) := by
  obtain ⟨hf, hp, hslot, hge, hlt, hrec, hmem, honly, hdf, hpe, hfresh, hcf, hold, hmf, hsf⟩ := hinv
  rw [destruct_eq inst w h _ hf hslot hrec rfl rfl]
  refine ⟨rfl, ?_, ?_, hdf, ?_, ?_, rfl, rfl, hpe, ?_⟩
  · intro a
    dsimp only
    by_cases ha : a = inst.m_src
    · subst ha
      simp
    · rw [Function.update_noteq ha]
      exact hmf a ha
  · intro i hact
    dsimp only at hact
    by_cases hih : i = h
    · subst hih
      rw [Function.update_same] at hact
      obtain ⟨r, hr, hri, hrf, _⟩ := hact
      cases hr
      exact Bool.noConfusion hri
    · rw [Function.update_noteq hih] at hact
      exact hih (honly i hact)
  · intro i hge' r hr
    dsimp only at hr
    by_cases hih : i = h
    · subst hih
      rw [Function.update_same] at hr
      cases hr
      rfl
    · rw [Function.update_noteq hih] at hr
      exact hcf i hge' hih r hr
  · intro i hi
    dsimp only
    rw [Function.update_noteq (show i ≠ h by omega)]
    exact hold i hi
  · intro i hi
    dsimp only
    exact Function.update_noteq hi _ _

/-- Resolution of a call depends only on the machine code. -/
theorem resolve_congr (w w' : SubhookWorld) (hm : ∀ a, w.mem a = w'.mem a) :
    ∀ fuel a, resolve w fuel a = resolve w' fuel a := by
  intro fuel
  induction fuel with
  | zero => intro a; rfl
  | succ n ih =>
    intro a
    rw [resolve, resolve, hm a]
    cases w'.mem a with
    | orig b => rfl
    | jmp d => exact ih d


/-- The installer object returned by the constructor always carries the
slot and the source address passed in. -/
theorem construct_snd (w : World) (slot : SlotId) (src dst : Addr) :
    (CScopedHookInstall.construct w slot src dst).2 = ⟨slot, src⟩ := by
  unfold CScopedHookInstall.construct
  split <;> rfl

/-- C1: after installing and replacing any number of times, the slot
holds exactly one active patch; its record carries the source address
passed at installation and the bytes saved before the first patch, so
every new patch was created from the original source, never re-derived
from the now-patched memory. -/
theorem C1_replace_preserves_original_source (w : World) (slot : SlotId) (src dst : Addr)
    (ds : List Addr)
    (hf : w.sub.fatal = false) (hp : w.sub.patchable src = true)
    (hfresh : ∀ i, w.sub.nextId ≤ i → w.sub.recs i = none)
    (hna : NoActive w.sub src) :
    (CScopedHookInstall.construct w slot src dst).2.m_src = src ∧
    ∃ h, (installThenReplaces w slot src dst ds).slots slot = some h ∧
      (installThenReplaces w slot src dst ds).sub.recs h =
        some ⟨src, ds.getLastD dst, w.sub.mem src, true, false⟩ ∧
      OnlyActive (installThenReplaces w slot src dst ds).sub src h := by
  simp only [installThenReplaces, installReplacesDestroy, construct_snd]
  have hinv := construct_inv w slot src dst hf hp hfresh hna
  obtain ⟨h', hinv'⟩ :=
    replaceList_inv w ⟨slot, src⟩ ds (CScopedHookInstall.construct w slot src dst).1 dst
      w.sub.nextId hinv
  exact ⟨trivial, h', hinv'.slot_eq, hinv'.rec_eq, hinv'.only_active⟩

theorem C1_witness :
    (CScopedHookInstall.construct initWorld 0 5 7).2.m_src = 5 ∧
    ∃ h, (installThenReplaces initWorld 0 5 7 [8, 9]).slots 0 = some h ∧
      (installThenReplaces initWorld 0 5 7 [8, 9]).sub.recs h =
        some ⟨5, [8, 9].getLastD 7, initWorld.sub.mem 5, true, false⟩ ∧
      OnlyActive (installThenReplaces initWorld 0 5 7 [8, 9]).sub 5 h :=
  C1_replace_preserves_original_source initWorld 0 5 7 [8, 9] rfl rfl (fun _ _ => rfl)
    (by intro i hact; simp [RecActive, initWorld] at hact)

/-- C2: installing, replacing N times and destroying the installer
leaves the machine code of every address byte-identical to its state
before the install, and calling any function resolves exactly as in the
pre-install world; with ds = [] this covers install followed
immediately by destruction. -/
theorem C2_destroy_restores_pre_install_code (w : World) (slot : SlotId) (src dst : Addr)
    (ds : List Addr)
    (hf : w.sub.fatal = false) (hp : w.sub.patchable src = true)
    (hfresh : ∀ i, w.sub.nextId ≤ i → w.sub.recs i = none)
    (hna : NoActive w.sub src) :
    (∀ a, (installReplacesDestroy w slot src dst ds).sub.mem a = w.sub.mem a) ∧
    (∀ fuel a, resolve (installReplacesDestroy w slot src dst ds).sub fuel a =
      resolve w.sub fuel a) := by
  simp only [installThenReplaces, installReplacesDestroy, construct_snd]
  have hinv := construct_inv w slot src dst hf hp hfresh hna
  obtain ⟨h', hinv'⟩ :=
    replaceList_inv w ⟨slot, src⟩ ds (CScopedHookInstall.construct w slot src dst).1 dst
      w.sub.nextId hinv
  obtain ⟨-, hmem, -, -, -, -, -, -, -, -⟩ :=
    destruct_final w _ ⟨slot, src⟩ (ds.getLastD dst) h' hinv'
  exact ⟨hmem, resolve_congr _ _ hmem⟩

theorem C2_witness :
    (∀ a, (installReplacesDestroy initWorld 0 5 7 [8, 9]).sub.mem a = initWorld.sub.mem a) ∧
    (∀ fuel a, resolve (installReplacesDestroy initWorld 0 5 7 [8, 9]).sub fuel a =
      resolve initWorld.sub fuel a) :=
  C2_destroy_restores_pre_install_code initWorld 0 5 7 [8, 9] rfl rfl (fun _ _ => rfl)
    (by intro i hact; simp [RecActive, initWorld] at hact)

/-- C4: across the whole installer lifecycle, free is never called
twice on one handle (the doubleFree flag stays down) and at destruction
every record the lifecycle created has been freed. -/
theorem C4_every_handle_freed_exactly_once (w : World) (slot : SlotId) (src dst : Addr)
    (ds : List Addr)
    (hf : w.sub.fatal = false) (hp : w.sub.patchable src = true)
    (hfresh : ∀ i, w.sub.nextId ≤ i → w.sub.recs i = none)
    (hna : NoActive w.sub src)
    (hdf : w.sub.doubleFree = false) :
    (installReplacesDestroy w slot src dst ds).sub.doubleFree = false ∧
    (∀ i, w.sub.nextId ≤ i →
      ∀ r, (installReplacesDestroy w slot src dst ds).sub.recs i = some r →
        r.freed = true) := by
  simp only [installThenReplaces, installReplacesDestroy, construct_snd]
  have hinv := construct_inv w slot src dst hf hp hfresh hna
  obtain ⟨h', hinv'⟩ :=
    replaceList_inv w ⟨slot, src⟩ ds (CScopedHookInstall.construct w slot src dst).1 dst
      w.sub.nextId hinv
  obtain ⟨-, -, -, hdfree, hfreed, -, -, -, -, -⟩ :=
    destruct_final w _ ⟨slot, src⟩ (ds.getLastD dst) h' hinv'
  exact ⟨hdf ▸ hdfree, hfreed⟩

theorem C4_witness :
    (installReplacesDestroy initWorld 0 5 7 [8, 9]).sub.doubleFree = false ∧
    (∀ i, initWorld.sub.nextId ≤ i →
      ∀ r, (installReplacesDestroy initWorld 0 5 7 [8, 9]).sub.recs i = some r →
        r.freed = true) :=
  C4_every_handle_freed_exactly_once initWorld 0 5 7 [8, 9] rfl rfl (fun _ _ => rfl)
    (by intro i hact; simp [RecActive, initWorld] at hact) rfl

/-- C6: at every point of the installer lifecycle the identity has at
most one active redirect, and after the installer is destroyed the slot
is EMPTY: no active redirect remains and the original code is back at
the source address. -/
theorem C6_one_active_then_empty (w : World) (slot : SlotId) (src dst : Addr)
    (ds : List Addr)
    (hf : w.sub.fatal = false) (hp : w.sub.patchable src = true)
    (hfresh : ∀ i, w.sub.nextId ≤ i → w.sub.recs i = none)
    (hna : NoActive w.sub src) :
    (∀ w' ∈ replaceStates (CScopedHookInstall.construct w slot src dst).2
        (CScopedHookInstall.construct w slot src dst).1 ds,
      AtMostOneActive w'.sub src) ∧
    NoActive (installReplacesDestroy w slot src dst ds).sub src ∧
    (installReplacesDestroy w slot src dst ds).sub.mem src = w.sub.mem src := by
  simp only [installThenReplaces, installReplacesDestroy, construct_snd]
  have hinv := construct_inv w slot src dst hf hp hfresh hna
  obtain ⟨h', hinv'⟩ :=
    replaceList_inv w ⟨slot, src⟩ ds (CScopedHookInstall.construct w slot src dst).1 dst
      w.sub.nextId hinv
  obtain ⟨-, hmem, hnoact, -, -, -, -, -, -, -⟩ :=
    destruct_final w _ ⟨slot, src⟩ (ds.getLastD dst) h' hinv'
  refine ⟨?_, hnoact, hmem src⟩
  intro w' hw' i j hi hj
  obtain ⟨dst'', h'', hinv''⟩ :=
    replaceStates_inv w ⟨slot, src⟩ ds (CScopedHookInstall.construct w slot src dst).1 dst
      w.sub.nextId hinv w' hw'
  exact (hinv''.only_active i hi).trans (hinv''.only_active j hj).symm

theorem C6_witness :
    (∀ w' ∈ replaceStates (CScopedHookInstall.construct initWorld 0 5 7).2
        (CScopedHookInstall.construct initWorld 0 5 7).1 [8, 9],
      AtMostOneActive w'.sub 5) ∧
    NoActive (installReplacesDestroy initWorld 0 5 7 [8, 9]).sub 5 ∧
    (installReplacesDestroy initWorld 0 5 7 [8, 9]).sub.mem 5 = initWorld.sub.mem 5 :=
  C6_one_active_then_empty initWorld 0 5 7 [8, 9] rfl rfl (fun _ _ => rfl)
    (by intro i hact; simp [RecActive, initWorld] at hact)

/-- C7: constructing an installer either ends with the process in the
fatal state (the primitive could not patch the source) or with an
active patch stored in the slot and the trampoline written; it never
continues silently with no active patch. -/
theorem C7_install_succeeds_or_fatal (w : World) (slot : SlotId) (src dst : Addr) :
    (CScopedHookInstall.construct w slot src dst).1.sub.fatal = true ∨
    (∃ h, (CScopedHookInstall.construct w slot src dst).1.slots slot = some h ∧
      (CScopedHookInstall.construct w slot src dst).1.sub.recs h =
        some ⟨src, dst, w.sub.mem src, true, false⟩ ∧
      (CScopedHookInstall.construct w slot src dst).1.sub.mem src = Code.jmp dst) := by
  by_cases hf : w.sub.fatal = true
  · left
    simp [CScopedHookInstall.construct, hf]
  · have hf' : w.sub.fatal = false := by simpa using hf
    by_cases hp : w.sub.patchable src = true
    · right
      rw [construct_eq w slot src dst hf' hp]
      exact ⟨w.sub.nextId, by simp, by simp, by simp⟩
    · left
      have hp' : w.sub.patchable src = false := by simpa using hp
      simp [CScopedHookInstall.construct, subhook_new, subhook_install, hf', hp']

/-- An unrelated identity stays inactive while an installer for another
source is alive. -/
theorem noactive_other (w0 w : World) (inst : CScopedHookInstall) (dst : Addr) (h : Nat)
    (hinv : LifeInv w0 w inst dst h) (src' : Addr) (hne : src' ≠ inst.m_src)
    (hna : NoActive w0.sub src') : NoActive w.sub src' := by
  intro i hact
  obtain ⟨r, hr, hri, hrf, hrs⟩ := hact
  by_cases hih : i = h
  · subst hih
    rw [hinv.rec_eq] at hr
    cases hr
    exact hne hrs.symm
  · by_cases hge : w0.sub.nextId ≤ i
    · have hfr := hinv.created_freed i hge hih r hr
      rw [hfr] at hrf
      exact Bool.noConfusion hrf
    · rw [hinv.old_recs i (by omega)] at hr
      exact hna i ⟨r, hr, hri, hrf, hrs⟩

/-- The full suppressor cycle on a slot holding an active patch: the
constructor deactivates the patch keeping the handle, and the
destructor reinstalls it, restoring slot, records and machine code to
the state immediately before construction. -/
theorem suppressor_cycle (w : World) (slot : SlotId) (h : Nat) (src dst : Addr) (sv : Code)
    (hf : w.sub.fatal = false)
    (hslot : w.slots slot = some h)
    (hrec : w.sub.recs h = some ⟨src, dst, sv, true, false⟩)
    (hmem : w.sub.mem src = Code.jmp dst) :
    (CScopedHookRemove.construct w slot).1.sub.recs h = some ⟨src, dst, sv, false, false⟩ ∧
    (CScopedHookRemove.construct w slot).1.sub.mem src = sv ∧
    (CScopedHookRemove.construct w slot).1.slots = w.slots ∧
    (CScopedHookRemove.construct w slot).1.sub.fatal = false ∧
    ((CScopedHookRemove.construct w slot).2.destruct
      (CScopedHookRemove.construct w slot).1).slots = w.slots ∧
    (∀ a, ((CScopedHookRemove.construct w slot).2.destruct
      (CScopedHookRemove.construct w slot).1).sub.mem a = w.sub.mem a) ∧
    (∀ i, ((CScopedHookRemove.construct w slot).2.destruct
      (CScopedHookRemove.construct w slot).1).sub.recs i = w.sub.recs i) ∧
    ((CScopedHookRemove.construct w slot).2.destruct
      (CScopedHookRemove.construct w slot).1).sub.doubleFree = w.sub.doubleFree ∧
    ((CScopedHookRemove.construct w slot).2.destruct
      (CScopedHookRemove.construct w slot).1).sub.nextId = w.sub.nextId ∧
    ((CScopedHookRemove.construct w slot).2.destruct
      (CScopedHookRemove.construct w slot).1).sub.fatal = false := by
  have hctor := suppress_eq w slot h ⟨src, dst, sv, true, false⟩ hf hslot hrec rfl rfl
  have hsnd : (CScopedHookRemove.construct w slot).2 = (⟨slot⟩ : CScopedHookRemove) := rfl
  rw [hsnd, hctor]
  dsimp only
  have hdtor := unsuppress_eq (⟨slot⟩ : CScopedHookRemove)
    { sub := { mem := Function.update w.sub.mem src sv,
               recs := Function.update w.sub.recs h (some ⟨src, dst, sv, false, false⟩),
               nextId := w.sub.nextId, doubleFree := w.sub.doubleFree,
               fatal := false, patchable := w.sub.patchable },
      slots := w.slots } h ⟨src, dst, sv, false, false⟩ rfl hslot (by simp) rfl rfl
  rw [hdtor]
  dsimp only
  refine ⟨by simp, by simp, rfl, rfl, rfl, ?_, ?_, rfl, rfl, rfl⟩
  · intro a
    by_cases ha : a = src
    · subst ha
      rw [Function.update_same, hmem]
    · rw [Function.update_noteq ha, Function.update_noteq ha]
  · intro i
    by_cases hih : i = h
    · subst hih
      rw [Function.update_same, hrec]
      simp
    · rw [Function.update_noteq hih, Function.update_noteq hih]

/-- C3: constructing a Suppressor on a slot holding an active patch
deactivates it without freeing the retained handle; during the window
the source address holds the saved original bytes, so a call resolves
to the original body, exactly as in any world where no hook was ever
installed; destroying the Suppressor reinstalls the retained handle and
slot, machine code and records all return to the state immediately
before the construction. -/
theorem C3_suppressor_window_and_restore (w : World) (slot : SlotId) (h : Nat)
    (src dst : Addr) (sv : Code)
    (hf : w.sub.fatal = false)
    (hslot : w.slots slot = some h)
    (hrec : w.sub.recs h = some ⟨src, dst, sv, true, false⟩)
    (hmem : w.sub.mem src = Code.jmp dst)
    (hsv : sv = Code.orig src) :
    (CScopedHookRemove.construct w slot).1.sub.recs h = some ⟨src, dst, sv, false, false⟩ ∧
    (CScopedHookRemove.construct w slot).1.sub.mem src = sv ∧
    (∀ fuel, resolve (CScopedHookRemove.construct w slot).1.sub (fuel + 1) src = some src) ∧
    (∀ u : SubhookWorld, u.mem src = Code.orig src → ∀ fuel,
      resolve (CScopedHookRemove.construct w slot).1.sub (fuel + 1) src =
        resolve u (fuel + 1) src) ∧
    ((CScopedHookRemove.construct w slot).2.destruct
      (CScopedHookRemove.construct w slot).1).slots = w.slots ∧
    (∀ a, ((CScopedHookRemove.construct w slot).2.destruct
      (CScopedHookRemove.construct w slot).1).sub.mem a = w.sub.mem a) ∧
    (∀ i, ((CScopedHookRemove.construct w slot).2.destruct
      (CScopedHookRemove.construct w slot).1).sub.recs i = w.sub.recs i) ∧
    ((CScopedHookRemove.construct w slot).2.destruct
      (CScopedHookRemove.construct w slot).1).sub.doubleFree = w.sub.doubleFree := by
  obtain ⟨h1, h2, h3, h4, h5, h6, h7, h8, h9, h10⟩ :=
    suppressor_cycle w slot h src dst sv hf hslot hrec hmem
  have hw1 : (CScopedHookRemove.construct w slot).1.sub.mem src = Code.orig src := by
    rw [h2, hsv]
  refine ⟨h1, h2, ?_, ?_, h5, h6, h7, h8⟩
  · intro fuel
    simp [resolve, hw1]
  · intro u hu fuel
    simp [resolve, hw1, hu]

theorem C3_witness :
    ((CScopedHookRemove.construct (CScopedHookInstall.construct initWorld 0 5 7).1 0).1.sub.recs 0 =
      some ⟨5, 7, Code.orig 5, false, false⟩) ∧
    ((CScopedHookRemove.construct (CScopedHookInstall.construct initWorld 0 5 7).1 0).1.sub.mem 5 =
      Code.orig 5) ∧
    (∀ fuel, resolve (CScopedHookRemove.construct
      (CScopedHookInstall.construct initWorld 0 5 7).1 0).1.sub (fuel + 1) 5 = some 5) ∧
    (∀ u : SubhookWorld, u.mem 5 = Code.orig 5 → ∀ fuel,
      resolve (CScopedHookRemove.construct
        (CScopedHookInstall.construct initWorld 0 5 7).1 0).1.sub (fuel + 1) 5 =
        resolve u (fuel + 1) 5) ∧
    (((CScopedHookRemove.construct (CScopedHookInstall.construct initWorld 0 5 7).1 0).2.destruct
      (CScopedHookRemove.construct (CScopedHookInstall.construct initWorld 0 5 7).1 0).1).slots =
      (CScopedHookInstall.construct initWorld 0 5 7).1.slots) ∧
    (∀ a, ((CScopedHookRemove.construct (CScopedHookInstall.construct initWorld 0 5 7).1 0).2.destruct
      (CScopedHookRemove.construct (CScopedHookInstall.construct initWorld 0 5 7).1 0).1).sub.mem a =
      (CScopedHookInstall.construct initWorld 0 5 7).1.sub.mem a) ∧
    (∀ i, ((CScopedHookRemove.construct (CScopedHookInstall.construct initWorld 0 5 7).1 0).2.destruct
      (CScopedHookRemove.construct (CScopedHookInstall.construct initWorld 0 5 7).1 0).1).sub.recs i =
      (CScopedHookInstall.construct initWorld 0 5 7).1.sub.recs i) ∧
    (((CScopedHookRemove.construct (CScopedHookInstall.construct initWorld 0 5 7).1 0).2.destruct
      (CScopedHookRemove.construct (CScopedHookInstall.construct initWorld 0 5 7).1 0).1).sub.doubleFree =
      (CScopedHookInstall.construct initWorld 0 5 7).1.sub.doubleFree) :=
  C3_suppressor_window_and_restore (CScopedHookInstall.construct initWorld 0 5 7).1 0 0 5 7
    (Code.orig 5) rfl rfl rfl rfl rfl

/-- C5 counterexample: install a hook (source 5, stub 7, slot 0), then
construct an outer Suppressor on the slot and an inner Suppressor
nested inside it.  After the inner Suppressor is destroyed the patch is
active again (the toggle reinstalled it), which is not the inactive
state the outer Suppressor had established at its construction: the
nested pair does not behave as a stack. -/
theorem C5_counterexample_inner_destroy_reactivates :
    c5innerDone.sub.mem 5 = Code.jmp 7 ∧
    c5outer.sub.mem 5 = Code.orig 5 ∧
    ¬ (c5innerDone.sub.mem 5 = c5outer.sub.mem 5) ∧
    c5innerDone.sub.recs 0 = some ⟨5, 7, Code.orig 5, true, false⟩ ∧
    c5outer.sub.recs 0 = some ⟨5, 7, Code.orig 5, false, false⟩ := by
  decide

/-- C5 (amended): nested Suppressors on the same slot are a plain
toggle, not a stack.  The inner constructor is a no-op on the already
suppressed slot, and the inner destructor reinstalls the patch, so
after it the slot is back in the ACTIVE state it had before the outer
construction, not in the suppressed state the outer Suppressor
established; the outer destructor is then itself a no-op, and the state
after the inner destruction already equals the state before the outer
construction. -/
theorem C5_amended_nested_suppressors_toggle (w : World) (slot : SlotId) (h : Nat)
    (src dst : Addr) (sv : Code)
    (hf : w.sub.fatal = false)
    (hslot : w.slots slot = some h)
    (hrec : w.sub.recs h = some ⟨src, dst, sv, true, false⟩)
    (hmem : w.sub.mem src = Code.jmp dst) :
    (CScopedHookRemove.construct (CScopedHookRemove.construct w slot).1 slot).1 =
      (CScopedHookRemove.construct w slot).1 ∧
    ((CScopedHookRemove.construct w slot).2.destruct
      (CScopedHookRemove.construct w slot).1).sub.mem src = Code.jmp dst ∧
    ((CScopedHookRemove.construct w slot).2.destruct
      (CScopedHookRemove.construct w slot).1).sub.recs h = some ⟨src, dst, sv, true, false⟩ ∧
    (CScopedHookRemove.construct w slot).1.sub.mem src = sv ∧
    ((CScopedHookRemove.construct w slot).2.destruct
      ((CScopedHookRemove.construct w slot).2.destruct
        (CScopedHookRemove.construct w slot).1) =
      (CScopedHookRemove.construct w slot).2.destruct
        (CScopedHookRemove.construct w slot).1) ∧
    (∀ a, ((CScopedHookRemove.construct w slot).2.destruct
      (CScopedHookRemove.construct w slot).1).sub.mem a = w.sub.mem a) ∧
    (∀ i, ((CScopedHookRemove.construct w slot).2.destruct
      (CScopedHookRemove.construct w slot).1).sub.recs i = w.sub.recs i) ∧
    ((CScopedHookRemove.construct w slot).2.destruct
      (CScopedHookRemove.construct w slot).1).slots = w.slots := by
  obtain ⟨h1, h2, h3, h4, h5, h6, h7, h8, h9, h10⟩ :=
    suppressor_cycle w slot h src dst sv hf hslot hrec hmem
  have hslot1 : (CScopedHookRemove.construct w slot).1.slots slot = some h := by
    rw [h3]; exact hslot
  have hnoop : (CScopedHookRemove.construct (CScopedHookRemove.construct w slot).1 slot).1 =
      (CScopedHookRemove.construct w slot).1 :=
    suppress_noop_eq _ slot h ⟨src, dst, sv, false, false⟩ h4 hslot1 h1 rfl
  have houter : (CScopedHookRemove.construct w slot).2.destruct
      ((CScopedHookRemove.construct w slot).2.destruct
        (CScopedHookRemove.construct w slot).1) =
      (CScopedHookRemove.construct w slot).2.destruct
        (CScopedHookRemove.construct w slot).1 :=
    unsuppress_noop_eq _ _ h ⟨src, dst, sv, true, false⟩ h10
      ((congrFun h5 slot).trans hslot) ((h7 h).trans hrec) rfl
  exact ⟨hnoop, (h6 src).trans hmem, (h7 h).trans hrec, h2, houter, h6, h7, h5⟩

theorem C5_amended_witness :
    (CScopedHookRemove.construct (CScopedHookRemove.construct c5install 0).1 0).1 =
      (CScopedHookRemove.construct c5install 0).1 ∧
    ((CScopedHookRemove.construct c5install 0).2.destruct
      (CScopedHookRemove.construct c5install 0).1).sub.mem 5 = Code.jmp 7 ∧
    ((CScopedHookRemove.construct c5install 0).2.destruct
      (CScopedHookRemove.construct c5install 0).1).sub.recs 0 =
        some ⟨5, 7, Code.orig 5, true, false⟩ ∧
    (CScopedHookRemove.construct c5install 0).1.sub.mem 5 = Code.orig 5 ∧
    ((CScopedHookRemove.construct c5install 0).2.destruct
      ((CScopedHookRemove.construct c5install 0).2.destruct
        (CScopedHookRemove.construct c5install 0).1) =
      (CScopedHookRemove.construct c5install 0).2.destruct
        (CScopedHookRemove.construct c5install 0).1) ∧
    (∀ a, ((CScopedHookRemove.construct c5install 0).2.destruct
      (CScopedHookRemove.construct c5install 0).1).sub.mem a = c5install.sub.mem a) ∧
    (∀ i, ((CScopedHookRemove.construct c5install 0).2.destruct
      (CScopedHookRemove.construct c5install 0).1).sub.recs i = c5install.sub.recs i) ∧
    ((CScopedHookRemove.construct c5install 0).2.destruct
      (CScopedHookRemove.construct c5install 0).1).slots = c5install.slots :=
  C5_amended_nested_suppressors_toggle c5install 0 0 5 7 (Code.orig 5) rfl rfl rfl rfl

/-- When every configured expectation either does not match the
arguments or is saturated, no expectation is consumed. -/
theorem consumeFirst_none (es : List ExpectClause) (args : Args)
    (hnm : ∀ e ∈ es, e.matched args = false ∨ e.remaining = 0) :
    consumeFirst es args = none := by
  induction es with
  | nil => rfl
  | cons e es ih =>
    have hcond : (e.matched args && decide (0 < e.remaining)) = false := by
      rcases hnm e (List.mem_cons_self e es) with h | h
      · simp [h]
      · simp [h]
    simp [consumeFirst, hcond,
      ih (fun e' he' => hnm e' (List.mem_cons_of_mem e he'))]

/-- C8: a call to a mocked function for which no configured expectation
matches the arguments (unsaturated) and no default behavior is
configured is recorded as an unexpected invocation and appears among
the failures surfaced at scope end; no configured result is produced,
no expectation is consumed, and dispatch returns normally (the failure
is reported, not fatal). -/
theorem C8_unexpected_call_reported (m : MockRecord) (args : Args)
    (hnm : ∀ e ∈ m.expects, e.matched args = false ∨ e.remaining = 0)
    (hnd : m.defaultBehavior = none) :
    (mockDispatch m args).1.unexpectedCalls = m.unexpectedCalls ++ [args] ∧
    args ∈ scopeEndFailures (mockDispatch m args).1 ∧
    (mockDispatch m args).2 = none ∧
    (mockDispatch m args).1.calls = m.calls ++ [args] ∧
    (mockDispatch m args).1.expects = m.expects := by
  have hcf := consumeFirst_none m.expects args hnm
  simp [mockDispatch, hcf, hnd, scopeEndFailures]

theorem C8_witness :
    (mockDispatch ⟨[⟨fun _ => true, 0, 5⟩], none, [], []⟩ [1]).1.unexpectedCalls =
      [] ++ [[1]] ∧
    [1] ∈ scopeEndFailures (mockDispatch ⟨[⟨fun _ => true, 0, 5⟩], none, [], []⟩ [1]).1 ∧
    (mockDispatch ⟨[⟨fun _ => true, 0, 5⟩], none, [], []⟩ [1]).2 = none ∧
    (mockDispatch ⟨[⟨fun _ => true, 0, 5⟩], none, [], []⟩ [1]).1.calls = [] ++ [[1]] ∧
    (mockDispatch ⟨[⟨fun _ => true, 0, 5⟩], none, [], []⟩ [1]).1.expects =
      [⟨fun _ => true, 0, 5⟩] :=
  C8_unexpected_call_reported ⟨[⟨fun _ => true, 0, 5⟩], none, [], []⟩ [1]
    (by intro e he; rw [List.mem_singleton] at he; subst he; exact Or.inr rfl) rfl

/-- C10: declaring a container with CUTIE_UNINITIALIZED_CONTAINER runs
the default MockContainer constructor with stub = nullptr, which
immediately creates and installs a patch redirecting the mocked
function to address 0: the entry point becomes a jump to null, so any
call resolves through address 0; the redirect stays until set_stub (run
by the container-initialization macro) replaces it with the adapter. -/
theorem C10_uninitialized_container_redirects_to_null (w : World) (slot : SlotId)
    (func adapter : Addr)
    (hf : w.sub.fatal = false) (hp : w.sub.patchable func = true) :
    (CUTIE_UNINITIALIZED_CONTAINER w slot func).1.sub.mem func = Code.jmp 0 ∧
    (∃ h, (CUTIE_UNINITIALIZED_CONTAINER w slot func).1.slots slot = some h ∧
      (CUTIE_UNINITIALIZED_CONTAINER w slot func).1.sub.recs h =
        some ⟨func, 0, w.sub.mem func, true, false⟩) ∧
    (∀ fuel, resolve (CUTIE_UNINITIALIZED_CONTAINER w slot func).1.sub (fuel + 1) func =
      resolve (CUTIE_UNINITIALIZED_CONTAINER w slot func).1.sub fuel 0) ∧
    ((CUTIE_UNINITIALIZED_CONTAINER w slot func).2.set_stub
      (CUTIE_UNINITIALIZED_CONTAINER w slot func).1 adapter).sub.mem func =
        Code.jmp adapter := by
  have hcuc1 : (CUTIE_UNINITIALIZED_CONTAINER w slot func).1 =
      (CScopedHookInstall.construct
        { w with slots := Function.update w.slots slot none } slot func 0).1 := rfl
  have hcuc2 : (CUTIE_UNINITIALIZED_CONTAINER w slot func).2.m_install =
      (CScopedHookInstall.construct
        { w with slots := Function.update w.slots slot none } slot func 0).2 := rfl
  have he := construct_eq { w with slots := Function.update w.slots slot none } slot func 0 hf hp
  refine ⟨?_, ?_, ?_, ?_⟩
  · rw [hcuc1, he]
    dsimp only
    simp
  · refine ⟨w.sub.nextId, ?_, ?_⟩
    · rw [hcuc1, he]
      dsimp only
      simp
    · rw [hcuc1, he]
      dsimp only
      simp
  · intro fuel
    rw [hcuc1, he]
    dsimp only
    have hjmp : Function.update w.sub.mem func (Code.jmp 0) func = Code.jmp 0 :=
      Function.update_same _ _ _
    simp [resolve, hjmp]
  · show ((CUTIE_UNINITIALIZED_CONTAINER w slot func).2.m_install.Replace
      (CUTIE_UNINITIALIZED_CONTAINER w slot func).1 adapter).sub.mem func = Code.jmp adapter
    rw [hcuc2, construct_snd, hcuc1, he]
    dsimp only
    rw [Replace_eq ⟨slot, func⟩
      { sub := { mem := Function.update w.sub.mem func (Code.jmp 0),
                 recs := Function.update w.sub.recs w.sub.nextId
                   (some ⟨func, 0, w.sub.mem func, true, false⟩),
                 nextId := w.sub.nextId + 1,
                 doubleFree := w.sub.doubleFree,
                 fatal := false,
                 patchable := w.sub.patchable },
        slots := Function.update (Function.update w.slots slot none) slot
          (some w.sub.nextId) } adapter w.sub.nextId
      ⟨func, 0, w.sub.mem func, true, false⟩ rfl (by simp) (by simp) rfl rfl rfl hp]
    dsimp only
    simp

theorem C10_witness :
    (CUTIE_UNINITIALIZED_CONTAINER initWorld 0 5).1.sub.mem 5 = Code.jmp 0 ∧
    (∃ h, (CUTIE_UNINITIALIZED_CONTAINER initWorld 0 5).1.slots 0 = some h ∧
      (CUTIE_UNINITIALIZED_CONTAINER initWorld 0 5).1.sub.recs h =
        some ⟨5, 0, initWorld.sub.mem 5, true, false⟩) ∧
    (∀ fuel, resolve (CUTIE_UNINITIALIZED_CONTAINER initWorld 0 5).1.sub (fuel + 1) 5 =
      resolve (CUTIE_UNINITIALIZED_CONTAINER initWorld 0 5).1.sub fuel 0) ∧
    ((CUTIE_UNINITIALIZED_CONTAINER initWorld 0 5).2.set_stub
      (CUTIE_UNINITIALIZED_CONTAINER initWorld 0 5).1 9).sub.mem 5 = Code.jmp 9 :=
  C10_uninitialized_container_redirects_to_null initWorld 0 5 9 rfl rfl

/-- The suppressor object returned by the constructor carries the slot
passed in. -/
theorem remove_snd (w : World) (slot : SlotId) :
    (CScopedHookRemove.construct w slot).2 = ⟨slot⟩ := rfl

/-- C9: operations on one hooked identity leave every distinct identity
untouched: installing, replacing, suppressing or destroying the hook of
(sA, srcA) changes neither the slot nor the machine code of (sB, srcB)
and conversely; and the scenario install A, install B, destroy B,
destroy A ends with both identities EMPTY, all machine code restored
and no double free. -/
theorem C9_distinct_identities_do_not_interfere (w : World) (sA sB : SlotId)
    (srcA dstA srcB dstB : Addr)
    (hss : sA ≠ sB) (hsrcs : srcA ≠ srcB)
    (hf : w.sub.fatal = false)
    (hpA : w.sub.patchable srcA = true) (hpB : w.sub.patchable srcB = true)
    (hfresh : ∀ i, w.sub.nextId ≤ i → w.sub.recs i = none)
    (hnaA : NoActive w.sub srcA) (hnaB : NoActive w.sub srcB) :
    ((CScopedHookInstall.construct w sA srcA dstA).1.slots sB = w.slots sB ∧
     (CScopedHookInstall.construct w sA srcA dstA).1.sub.mem srcB = w.sub.mem srcB) ∧
    ((CScopedHookInstall.construct (CScopedHookInstall.construct w sA srcA dstA).1 sB srcB dstB).1.slots sA = (CScopedHookInstall.construct w sA srcA dstA).1.slots sA ∧
     (CScopedHookInstall.construct (CScopedHookInstall.construct w sA srcA dstA).1 sB srcB dstB).1.sub.mem srcA = (CScopedHookInstall.construct w sA srcA dstA).1.sub.mem srcA) ∧
    (∀ d, ((CScopedHookInstall.construct w sA srcA dstA).2.Replace
        (CScopedHookInstall.construct (CScopedHookInstall.construct w sA srcA dstA).1 sB srcB dstB).1 d).slots sB =
      (CScopedHookInstall.construct (CScopedHookInstall.construct w sA srcA dstA).1 sB srcB dstB).1.slots sB ∧
      ((CScopedHookInstall.construct w sA srcA dstA).2.Replace
        (CScopedHookInstall.construct (CScopedHookInstall.construct w sA srcA dstA).1 sB srcB dstB).1 d).sub.mem srcB =
      (CScopedHookInstall.construct (CScopedHookInstall.construct w sA srcA dstA).1 sB srcB dstB).1.sub.mem srcB) ∧
    ((CScopedHookRemove.construct (CScopedHookInstall.construct (CScopedHookInstall.construct w sA srcA dstA).1 sB srcB dstB).1 sA).1.slots sB =
      (CScopedHookInstall.construct (CScopedHookInstall.construct w sA srcA dstA).1 sB srcB dstB).1.slots sB ∧
     (CScopedHookRemove.construct (CScopedHookInstall.construct (CScopedHookInstall.construct w sA srcA dstA).1 sB srcB dstB).1 sA).1.sub.mem srcB =
      (CScopedHookInstall.construct (CScopedHookInstall.construct w sA srcA dstA).1 sB srcB dstB).1.sub.mem srcB ∧
     ((CScopedHookRemove.construct (CScopedHookInstall.construct (CScopedHookInstall.construct w sA srcA dstA).1 sB srcB dstB).1 sA).2.destruct
       (CScopedHookRemove.construct (CScopedHookInstall.construct (CScopedHookInstall.construct w sA srcA dstA).1 sB srcB dstB).1 sA).1).sub.mem srcB =
      (CScopedHookInstall.construct (CScopedHookInstall.construct w sA srcA dstA).1 sB srcB dstB).1.sub.mem srcB) ∧
    (((CScopedHookInstall.construct (CScopedHookInstall.construct w sA srcA dstA).1 sB srcB dstB).2.destruct
      (CScopedHookInstall.construct (CScopedHookInstall.construct w sA srcA dstA).1 sB srcB dstB).1).slots sA =
      (CScopedHookInstall.construct (CScopedHookInstall.construct w sA srcA dstA).1 sB srcB dstB).1.slots sA ∧
     ((CScopedHookInstall.construct (CScopedHookInstall.construct w sA srcA dstA).1 sB srcB dstB).2.destruct
      (CScopedHookInstall.construct (CScopedHookInstall.construct w sA srcA dstA).1 sB srcB dstB).1).sub.mem srcA =
      (CScopedHookInstall.construct (CScopedHookInstall.construct w sA srcA dstA).1 sB srcB dstB).1.sub.mem srcA) ∧
    NoActive ((CScopedHookInstall.construct w sA srcA dstA).2.destruct
      ((CScopedHookInstall.construct (CScopedHookInstall.construct w sA srcA dstA).1 sB srcB dstB).2.destruct
        (CScopedHookInstall.construct (CScopedHookInstall.construct w sA srcA dstA).1 sB srcB dstB).1)).sub srcA ∧
    NoActive ((CScopedHookInstall.construct w sA srcA dstA).2.destruct
      ((CScopedHookInstall.construct (CScopedHookInstall.construct w sA srcA dstA).1 sB srcB dstB).2.destruct
        (CScopedHookInstall.construct (CScopedHookInstall.construct w sA srcA dstA).1 sB srcB dstB).1)).sub srcB ∧
    (∀ a, ((CScopedHookInstall.construct w sA srcA dstA).2.destruct
      ((CScopedHookInstall.construct (CScopedHookInstall.construct w sA srcA dstA).1 sB srcB dstB).2.destruct
        (CScopedHookInstall.construct (CScopedHookInstall.construct w sA srcA dstA).1 sB srcB dstB).1)).sub.mem a = w.sub.mem a) ∧
    ((CScopedHookInstall.construct w sA srcA dstA).2.destruct
      ((CScopedHookInstall.construct (CScopedHookInstall.construct w sA srcA dstA).1 sB srcB dstB).2.destruct
        (CScopedHookInstall.construct (CScopedHookInstall.construct w sA srcA dstA).1 sB srcB dstB).1)).sub.doubleFree = w.sub.doubleFree := by
  simp only [construct_snd, remove_snd]
  have hinvA := construct_inv w sA srcA dstA hf hpA hfresh hnaA
  have heA := construct_eq w sA srcA dstA hf hpA
  have hf1 := hinvA.fatal_false
  have hpB1 : (CScopedHookInstall.construct w sA srcA dstA).1.sub.patchable srcB = true := by
    rw [hinvA.patchable_eq]; exact hpB
  have hnaB1 : NoActive (CScopedHookInstall.construct w sA srcA dstA).1.sub srcB :=
    noactive_other w (CScopedHookInstall.construct w sA srcA dstA).1 ⟨sA, srcA⟩ dstA
      w.sub.nextId hinvA srcB (Ne.symm hsrcs) hnaB
  have hinvB := construct_inv (CScopedHookInstall.construct w sA srcA dstA).1 sB srcB dstB
    hf1 hpB1 hinvA.fresh hnaB1
  have heB := construct_eq (CScopedHookInstall.construct w sA srcA dstA).1 sB srcB dstB hf1 hpB1
  obtain ⟨hf3, hmem3, hnoB3, hdf3, hallfreed3, hold3, hslots3, hnext3, hpat3, hrecf3⟩ :=
    destruct_final (CScopedHookInstall.construct w sA srcA dstA).1 _ ⟨sB, srcB⟩ dstB _ hinvB
  have h2a : (CScopedHookInstall.construct (CScopedHookInstall.construct w sA srcA dstA).1 sB srcB dstB).1.slots sA =
      (CScopedHookInstall.construct w sA srcA dstA).1.slots sA := by
    rw [heB]; exact Function.update_noteq hss _ _
  have h2b : (CScopedHookInstall.construct (CScopedHookInstall.construct w sA srcA dstA).1 sB srcB dstB).1.sub.mem srcA =
      (CScopedHookInstall.construct w sA srcA dstA).1.sub.mem srcA := by
    rw [heB]; exact Function.update_noteq hsrcs _ _
  have hslotA2 : (CScopedHookInstall.construct (CScopedHookInstall.construct w sA srcA dstA).1 sB srcB dstB).1.slots sA = some w.sub.nextId :=
    h2a.trans hinvA.slot_eq
  have hrecA2 : (CScopedHookInstall.construct (CScopedHookInstall.construct w sA srcA dstA).1 sB srcB dstB).1.sub.recs w.sub.nextId =
      some ⟨srcA, dstA, w.sub.mem srcA, true, false⟩ := by
    rw [heB]
    refine Eq.trans ?_ hinvA.rec_eq
    exact Function.update_noteq (Nat.ne_of_lt hinvA.h_lt) _ _
  have hf2 := hinvB.fatal_false
  have hpA2 : (CScopedHookInstall.construct (CScopedHookInstall.construct w sA srcA dstA).1 sB srcB dstB).1.sub.patchable srcA = true := by
    rw [hinvB.patchable_eq, hinvA.patchable_eq]; exact hpA
  have hsup := suppress_eq (CScopedHookInstall.construct (CScopedHookInstall.construct w sA srcA dstA).1 sB srcB dstB).1 sA w.sub.nextId
    ⟨srcA, dstA, w.sub.mem srcA, true, false⟩ hf2 hslotA2 hrecA2 rfl rfl
  have hslotA3 : (CScopedHookInstall.destruct ⟨sB, srcB⟩
      (CScopedHookInstall.construct (CScopedHookInstall.construct w sA srcA dstA).1 sB srcB dstB).1).slots sA = some w.sub.nextId :=
    (congrFun hslots3 sA).trans hslotA2
  have hrecA3 : (CScopedHookInstall.destruct ⟨sB, srcB⟩
      (CScopedHookInstall.construct (CScopedHookInstall.construct w sA srcA dstA).1 sB srcB dstB).1).sub.recs w.sub.nextId =
      some ⟨srcA, dstA, w.sub.mem srcA, true, false⟩ :=
    (hrecf3 w.sub.nextId (Nat.ne_of_lt hinvA.h_lt)).trans hrecA2
  have hdA := destruct_eq ⟨sA, srcA⟩ (CScopedHookInstall.destruct ⟨sB, srcB⟩
      (CScopedHookInstall.construct (CScopedHookInstall.construct w sA srcA dstA).1 sB srcB dstB).1)
    w.sub.nextId ⟨srcA, dstA, w.sub.mem srcA, true, false⟩ hf3 hslotA3 hrecA3 rfl rfl
  refine ⟨⟨?_, ?_⟩, ⟨h2a, h2b⟩, ?_, ⟨?_, ?_, ?_⟩,
    ⟨congrFun hslots3 sA, (hmem3 srcA).trans h2b.symm⟩, ?_, ?_, ?_, ?_⟩
  · rw [heA]; exact Function.update_noteq (Ne.symm hss) _ _
  · rw [heA]; exact Function.update_noteq (Ne.symm hsrcs) _ _
  · intro d
    rw [Replace_eq ⟨sA, srcA⟩ (CScopedHookInstall.construct (CScopedHookInstall.construct w sA srcA dstA).1 sB srcB dstB).1 d
      w.sub.nextId ⟨srcA, dstA, w.sub.mem srcA, true, false⟩ hf2 hslotA2 hrecA2 rfl rfl rfl hpA2]
    exact ⟨Function.update_noteq (Ne.symm hss) _ _,
      Function.update_noteq (Ne.symm hsrcs) _ _⟩
  · rw [hsup]
  · rw [hsup]
    exact Function.update_noteq (Ne.symm hsrcs) _ _
  · rw [hsup]
    dsimp only
    rw [unsuppress_eq (⟨sA⟩ : CScopedHookRemove)
      { sub := { mem := Function.update (CScopedHookInstall.construct (CScopedHookInstall.construct w sA srcA dstA).1 sB srcB dstB).1.sub.mem srcA (w.sub.mem srcA),
                 recs := Function.update (CScopedHookInstall.construct (CScopedHookInstall.construct w sA srcA dstA).1 sB srcB dstB).1.sub.recs w.sub.nextId
                   (some ⟨srcA, dstA, w.sub.mem srcA, false, false⟩),
                 nextId := (CScopedHookInstall.construct (CScopedHookInstall.construct w sA srcA dstA).1 sB srcB dstB).1.sub.nextId,
                 doubleFree := (CScopedHookInstall.construct (CScopedHookInstall.construct w sA srcA dstA).1 sB srcB dstB).1.sub.doubleFree,
                 fatal := false,
                 patchable := (CScopedHookInstall.construct (CScopedHookInstall.construct w sA srcA dstA).1 sB srcB dstB).1.sub.patchable },
        slots := (CScopedHookInstall.construct (CScopedHookInstall.construct w sA srcA dstA).1 sB srcB dstB).1.slots }
      w.sub.nextId ⟨srcA, dstA, w.sub.mem srcA, false, false⟩ rfl hslotA2 (by simp) rfl rfl]
    dsimp only
    rw [Function.update_noteq (Ne.symm hsrcs), Function.update_noteq (Ne.symm hsrcs)]
  · rw [hdA]
    intro i hact
    dsimp only at hact
    by_cases hih : i = w.sub.nextId
    · subst hih
      rw [Function.update_same] at hact
      obtain ⟨r, hr, hri, hrf, hrs⟩ := hact
      cases hr
      exact Bool.noConfusion hri
    · rw [Function.update_noteq hih] at hact
      obtain ⟨r, hr, hri, hrf, hrs⟩ := hact
      by_cases hge : (CScopedHookInstall.construct w sA srcA dstA).1.sub.nextId ≤ i
      · have hfr := hallfreed3 i hge r hr
        rw [hfr] at hrf
        exact Bool.noConfusion hrf
      · rw [hold3 i (by omega)] at hr
        exact hih (hinvA.only_active i ⟨r, hr, hri, hrf, hrs⟩)
  · rw [hdA]
    intro i hact
    dsimp only at hact
    by_cases hih : i = w.sub.nextId
    · subst hih
      rw [Function.update_same] at hact
      obtain ⟨r, hr, hri, hrf, hrs⟩ := hact
      cases hr
      exact Bool.noConfusion hri
    · rw [Function.update_noteq hih] at hact
      exact hnoB3 i hact
  · rw [hdA]
    intro a
    dsimp only
    by_cases ha : a = srcA
    · subst ha
      rw [Function.update_same]
    · rw [Function.update_noteq ha]
      exact (hmem3 a).trans (hinvA.mem_frame a ha)
  · rw [hdA]
    exact hdf3.trans hinvA.dfree_eq

theorem C9_witness :
    ((CScopedHookInstall.construct initWorld 0 5 7).1.slots 1 = initWorld.slots 1 ∧
     (CScopedHookInstall.construct initWorld 0 5 7).1.sub.mem 6 = initWorld.sub.mem 6) ∧
    ((CScopedHookInstall.construct (CScopedHookInstall.construct initWorld 0 5 7).1 1 6 8).1.slots 0 = (CScopedHookInstall.construct initWorld 0 5 7).1.slots 0 ∧
     (CScopedHookInstall.construct (CScopedHookInstall.construct initWorld 0 5 7).1 1 6 8).1.sub.mem 5 = (CScopedHookInstall.construct initWorld 0 5 7).1.sub.mem 5) ∧
    (∀ d, ((CScopedHookInstall.construct initWorld 0 5 7).2.Replace
        (CScopedHookInstall.construct (CScopedHookInstall.construct initWorld 0 5 7).1 1 6 8).1 d).slots 1 =
      (CScopedHookInstall.construct (CScopedHookInstall.construct initWorld 0 5 7).1 1 6 8).1.slots 1 ∧
      ((CScopedHookInstall.construct initWorld 0 5 7).2.Replace
        (CScopedHookInstall.construct (CScopedHookInstall.construct initWorld 0 5 7).1 1 6 8).1 d).sub.mem 6 =
      (CScopedHookInstall.construct (CScopedHookInstall.construct initWorld 0 5 7).1 1 6 8).1.sub.mem 6) ∧
    ((CScopedHookRemove.construct (CScopedHookInstall.construct (CScopedHookInstall.construct initWorld 0 5 7).1 1 6 8).1 0).1.slots 1 =
      (CScopedHookInstall.construct (CScopedHookInstall.construct initWorld 0 5 7).1 1 6 8).1.slots 1 ∧
     (CScopedHookRemove.construct (CScopedHookInstall.construct (CScopedHookInstall.construct initWorld 0 5 7).1 1 6 8).1 0).1.sub.mem 6 =
      (CScopedHookInstall.construct (CScopedHookInstall.construct initWorld 0 5 7).1 1 6 8).1.sub.mem 6 ∧
     ((CScopedHookRemove.construct (CScopedHookInstall.construct (CScopedHookInstall.construct initWorld 0 5 7).1 1 6 8).1 0).2.destruct
       (CScopedHookRemove.construct (CScopedHookInstall.construct (CScopedHookInstall.construct initWorld 0 5 7).1 1 6 8).1 0).1).sub.mem 6 =
      (CScopedHookInstall.construct (CScopedHookInstall.construct initWorld 0 5 7).1 1 6 8).1.sub.mem 6) ∧
    (((CScopedHookInstall.construct (CScopedHookInstall.construct initWorld 0 5 7).1 1 6 8).2.destruct
      (CScopedHookInstall.construct (CScopedHookInstall.construct initWorld 0 5 7).1 1 6 8).1).slots 0 =
      (CScopedHookInstall.construct (CScopedHookInstall.construct initWorld 0 5 7).1 1 6 8).1.slots 0 ∧
     ((CScopedHookInstall.construct (CScopedHookInstall.construct initWorld 0 5 7).1 1 6 8).2.destruct
      (CScopedHookInstall.construct (CScopedHookInstall.construct initWorld 0 5 7).1 1 6 8).1).sub.mem 5 =
      (CScopedHookInstall.construct (CScopedHookInstall.construct initWorld 0 5 7).1 1 6 8).1.sub.mem 5) ∧
    NoActive ((CScopedHookInstall.construct initWorld 0 5 7).2.destruct
      ((CScopedHookInstall.construct (CScopedHookInstall.construct initWorld 0 5 7).1 1 6 8).2.destruct
        (CScopedHookInstall.construct (CScopedHookInstall.construct initWorld 0 5 7).1 1 6 8).1)).sub 5 ∧
    NoActive ((CScopedHookInstall.construct initWorld 0 5 7).2.destruct
      ((CScopedHookInstall.construct (CScopedHookInstall.construct initWorld 0 5 7).1 1 6 8).2.destruct
        (CScopedHookInstall.construct (CScopedHookInstall.construct initWorld 0 5 7).1 1 6 8).1)).sub 6 ∧
    (∀ a, ((CScopedHookInstall.construct initWorld 0 5 7).2.destruct
      ((CScopedHookInstall.construct (CScopedHookInstall.construct initWorld 0 5 7).1 1 6 8).2.destruct
        (CScopedHookInstall.construct (CScopedHookInstall.construct initWorld 0 5 7).1 1 6 8).1)).sub.mem a = initWorld.sub.mem a) ∧
    ((CScopedHookInstall.construct initWorld 0 5 7).2.destruct
      ((CScopedHookInstall.construct (CScopedHookInstall.construct initWorld 0 5 7).1 1 6 8).2.destruct
        (CScopedHookInstall.construct (CScopedHookInstall.construct initWorld 0 5 7).1 1 6 8).1)).sub.doubleFree = initWorld.sub.doubleFree :=
  C9_distinct_identities_do_not_interfere initWorld 0 1 5 7 6 8 (by decide) (by decide)
    rfl rfl rfl (fun _ _ => rfl)
    (by intro i hact; simp [RecActive, initWorld] at hact)
    (by intro i hact; simp [RecActive, initWorld] at hact)
